import Mathlib

/-!
# Verification of the portfolio health-check processing pipeline

Shallow embedding of `processing/pipeline.py` and `processing/schema.py`.

Modelling conventions:
* A spreadsheet cell is `Cell`: missing (`na`, pandas `NaN`), a number
  (`num`, rationals stand in for floats; the embedded tables carry no
  infinities, so `np.isfinite` guards are vacuously true), or text (`str`).
* A `Table` is a pandas DataFrame: a list of column names plus a list of
  rows; a row is an association list from column name to cell, and a
  lookup of a column that is absent from a row yields `na`.
* `pd.to_numeric(s, errors="coerce")` is `Cell.toNum` (numbers pass,
  text and missing become `none`); pandas' NaN-skipping `Series.sum()`
  is `optSum`.
* pandas `groupby` is modelled by enumerating the distinct keys of the
  rows (`groupSums`); the enumeration order of the keys is the order of
  the deduplicated key list, which differs from pandas' sorted key
  order but agrees with it up to permutation — no verified property
  depends on the pre-sort order of the groups.
* `sort_values(ascending=False)` is modelled as one fixed descending
  reorder (`sortDesc`): larger keys first, missing keys (NaN) last.
  The program's default `kind='quicksort'` determines no particular
  order among tied keys, so the model's tie-break is an arbitrary
  representative, and every verified property below is insensitive to
  the tie order of the sort.
-/

namespace Pipeline

/-- A spreadsheet cell: missing (NaN/NaT), numeric, or text. -/
inductive Cell where
  | na : Cell
  | num (q : ℚ) : Cell
  | str (s : String) : Cell
deriving DecidableEq

/-- `pd.to_numeric(·, errors="coerce")` on a single cell: numbers pass
through, text and missing cells coerce to `none` (NaN). -/
def Cell.toNum : Cell → Option ℚ
  | Cell.num q => some q
  | _ => none

/-- A DataFrame row: an association list from column name to cell. -/
abbrev Row := List (String × Cell)

/-- Cell of a row at a column; absent columns read as missing. -/
def Row.get (r : Row) (c : String) : Cell :=
  match r.find? (fun p => p.1 == c) with
  | some p => p.2
  | none => Cell.na

/-- A DataFrame: column names plus rows. -/
structure Table where
  cols : List String
  rows : List Row
deriving DecidableEq

/-- pandas NaN-skipping sum of a numeric series. -/
def optSum (l : List (Option ℚ)) : ℚ :=
  (l.map (fun o => o.getD 0)).sum

/-- The numeric series `_num(df[c])`: per-row coercion of column `c`. -/
def numCol (t : Table) (c : String) : List (Option ℚ) :=
  t.rows.map (fun r => (r.get c).toNum)

/-- `_coalesce_weight` (pipeline.py:163-181): prefer the explicit
`Weight %` column; if `USD Total` is also present, its sum is strictly
positive and the explicit weights do not sum to 100 within 0.25,
recompute weights from `USD Total` normalised to 100; with no explicit
weight column, derive from `USD Total` when its sum is strictly
positive, else all weights are 0.0.  (The `np.isfinite(w.sum())`
disjunct is dropped: sums of rationals are always finite.) -/
def coalesce_weight (t : Table) : List (Option ℚ) :=
  if t.cols.contains ("Weight %") then
    let w := numCol t ("Weight %")
    if t.cols.contains ("USD Total") then
      let usd := numCol t ("USD Total")
      if 0 < optSum usd ∧ (1 : ℚ)/4 < |optSum w - 100| then
        usd.map (fun o => o.map (fun q => q / optSum usd * 100))
      else w
    else w
  else if t.cols.contains ("USD Total") then
    let usd := numCol t ("USD Total")
    if 0 < optSum usd then
      usd.map (fun o => o.map (fun q => q / optSum usd * 100))
    else t.rows.map (fun _ => some 0)
  else t.rows.map (fun _ => some 0)

/-- C3: with an explicit `Weight %` column and a `USD Total` column both
present and the explicit weights summing to 100 within 0.25, the
resolved weights are the explicit ones and their sum stays within the
tolerance. -/
theorem coalesce_weight_consistent (t : Table)
    (hw : t.cols.contains ("Weight %") = true)
    (hu : t.cols.contains ("USD Total") = true)
    (hc : |optSum (numCol t ("Weight %")) - 100| ≤ 1/4) :
    coalesce_weight t = numCol t ("Weight %") ∧
      |optSum (coalesce_weight t) - 100| ≤ 1/4 := by
  have heq : coalesce_weight t = numCol t ("Weight %") := by
    unfold coalesce_weight
    rw [hw, hu]
    simp only [if_true]
    rw [if_neg]
    rintro ⟨-, habs⟩
    exact absurd hc (not_le.mpr habs)
  exact ⟨heq, heq ▸ hc⟩

/-- Concrete table for the C3 witness: explicit weights 60+40=100,
USD totals 30+70. -/
def tableC3 : Table :=
  ⟨["Weight %", "USD Total"],
   [[("Weight %", Cell.num 60), ("USD Total", Cell.num 30)],
    [("Weight %", Cell.num 40), ("USD Total", Cell.num 70)]]⟩

/-- Witness for C3 at `tableC3`. -/
theorem coalesce_weight_consistent_witness :
    (|optSum (numCol tableC3 ("Weight %")) - 100| ≤ 1/4) ∧
      (coalesce_weight tableC3 = numCol tableC3 ("Weight %") ∧
        |optSum (coalesce_weight tableC3) - 100| ≤ 1/4) := by
  have h : optSum (numCol tableC3 ("Weight %")) = 100 := by
    norm_num [optSum, numCol, tableC3, Row.get, Cell.toNum, List.find?]
  have hc : |optSum (numCol tableC3 ("Weight %")) - 100| ≤ 1/4 := by
    rw [h]; norm_num
  exact ⟨hc, coalesce_weight_consistent tableC3 (by decide) (by decide) hc⟩

variable {α : Type*}

/-- Comparator of the descending reorder standing in for
`sort_values(ascending=False)`, over position-tagged elements: larger
keys first, missing keys (NaN) placed last.  The positional tie-break
only makes the reorder a well-defined function; the program's default
sort kind fixes no tie order, and no verified property depends on
it. -/
def descLEb (k : α → Option ℚ) (a b : ℕ × α) : Bool :=
  match k a.2, k b.2 with
  | some x, some y => decide (y < x) || (decide (y = x) && decide (a.1 ≤ b.1))
  | some _, none => true
  | none, some _ => false
  | none, none => decide (a.1 ≤ b.1)

/-- Propositional form of `descLEb`. -/
def descRel (k : α → Option ℚ) (a b : ℕ × α) : Prop := descLEb k a b = true

instance (k : α → Option ℚ) : DecidableRel (descRel k) :=
  fun _ _ => instDecidableEqBool _ _

instance (k : α → Option ℚ) : IsTotal (ℕ × α) (descRel k) where
  total a b := by
    unfold descRel descLEb
    rcases k a.2 with _ | x <;> rcases k b.2 with _ | y <;> simp
    · omega
    · rcases lt_trichotomy x y with h | h | h
      · tauto
      · subst h
        rcases Nat.le_total a.1 b.1 with h | h <;> tauto
      · tauto

instance (k : α → Option ℚ) : IsTrans (ℕ × α) (descRel k) where
  trans a b c hab hbc := by
    unfold descRel descLEb at hab hbc ⊢
    rcases ha : k a.2 with _ | x <;> rcases hb : k b.2 with _ | y <;>
      rcases hc : k c.2 with _ | z <;> rw [ha, hb] at hab <;>
      rw [hb, hc] at hbc <;> simp_all
    · omega
    · rcases hab with h1 | ⟨h1, h1i⟩ <;> rcases hbc with h2 | ⟨h2, h2i⟩
      · exact Or.inl (h2.trans h1)
      · exact Or.inl (h2.symm ▸ h1)
      · exact Or.inl (h1 ▸ h2)
      · exact Or.inr ⟨h2.trans h1, h1i.trans h2i⟩

/-- The enumerated descending reorder underlying the model of
`sort_values(ascending=False)`. -/
def sortEnum (k : α → Option ℚ) (l : List α) : List (ℕ × α) :=
  List.insertionSort (descRel k) l.enum

/-- `sort_values(ascending=False)`: sort the position-enumerated list
by `descLEb` and project the positions away. -/
def sortDesc (k : α → Option ℚ) (l : List α) : List α :=
  (sortEnum k l).map Prod.snd

theorem sortDesc_perm (k : α → Option ℚ) (l : List α) :
    List.Perm (sortDesc k l) l := by
  have h := (List.perm_insertionSort (descRel k) l.enum).map Prod.snd
  rwa [List.enum_map_snd] at h

/-- Key comparison projected out of `descLEb`: descending order with
missing keys last. -/
def keyGE (k : α → Option ℚ) (a b : α) : Prop :=
  match k a, k b with
  | some x, some y => y ≤ x
  | _, none => True
  | none, some _ => False

theorem descRel_keyGE (k : α → Option ℚ) (a b : ℕ × α)
    (h : descRel k a b) : keyGE k a.2 b.2 := by
  unfold descRel descLEb at h
  unfold keyGE
  rcases ha : k a.2 with _ | x <;> rcases hb : k b.2 with _ | y <;>
    rw [ha, hb] at h <;> simp_all
  rcases h with h | ⟨h, -⟩
  · exact le_of_lt h
  · exact le_of_eq h

/-- The projected descending reorder is sorted by its key. -/
theorem sortDesc_pairwise (k : α → Option ℚ) (l : List α) :
    List.Pairwise (keyGE k) (sortDesc k l) := by
  have hs : List.Sorted (descRel k) (sortEnum k l) :=
    List.sorted_insertionSort _ _
  exact List.Pairwise.map Prod.snd (fun a b h => descRel_keyGE k a b h) hs


/-- Distinct grouping keys of the rows; the `na` key keeps the NaN
group (pandas `dropna=False` behaviour). -/
def groupKeys (rows : List Row) (key : Row → Cell) : List Cell :=
  (rows.map key).dedup

/-- Per-group sums: `groupby(key)[val].sum()`. -/
def groupSums (rows : List Row) (key : Row → Cell) (val : Row → Option ℚ) :
    List (Cell × ℚ) :=
  (groupKeys rows key).map
    (fun g => (g, optSum ((rows.filter (fun r => decide (key r = g))).map val)))

theorem sum_ite_key (c : ℚ) :
    ∀ (ks : List Cell) (a : Cell), ks.Nodup → a ∈ ks →
      (ks.map (fun g => if a = g then c else 0)).sum = c := by
  intro ks
  induction ks with
  | nil => intro a _ ha; cases ha
  | cons k ks ih =>
    intro a hnd ha
    rcases List.mem_cons.mp ha with rfl | ha
    · simp only [List.map_cons, List.sum_cons, if_pos rfl]
      have hz : ∀ x ∈ ks.map (fun g => if a = g then c else 0), x = 0 := by
        intro x hx
        rcases List.mem_map.mp hx with ⟨g, hg, rfl⟩
        have hne : a ≠ g := fun h => (List.nodup_cons.mp hnd).1 (h ▸ hg)
        simp [hne]
      rw [List.sum_eq_zero hz, add_zero]
      simp
    · have hne : a ≠ k := fun h => (List.nodup_cons.mp hnd).1 (h ▸ ha)
      simp only [List.map_cons, List.sum_cons, if_neg hne, zero_add]
      exact ih a (List.nodup_cons.mp hnd).2 ha

theorem sum_map_add_cell (ks : List Cell) (f g : Cell → ℚ) :
    (ks.map (fun x => f x + g x)).sum = (ks.map f).sum + (ks.map g).sum := by
  induction ks with
  | nil => simp
  | cons k ks ih => simp only [List.map_cons, List.sum_cons, ih]; ring

/-- Conservation backbone: summing per-group sums over the complete,
duplicate-free key list recovers the NaN-skipping total. -/
theorem groupSums_total (key : Row → Cell) (val : Row → Option ℚ)
    (ks : List Cell) (rows : List Row) (hnd : ks.Nodup)
    (hmem : ∀ r ∈ rows, key r ∈ ks) :
    (ks.map
        (fun g => optSum ((rows.filter (fun r => decide (key r = g))).map val))).sum
      = optSum (rows.map val) := by
  induction rows with
  | nil => simp [optSum, List.sum_eq_zero]
  | cons r rows ih =>
    have hr : key r ∈ ks := hmem r (List.mem_cons_self r rows)
    have hrec := ih (fun x hx => hmem x (List.mem_cons_of_mem r hx))
    have hopt : ∀ g, optSum (((r :: rows).filter (fun x => decide (key x = g))).map val)
        = (if key r = g then (val r).getD 0 else 0)
          + optSum ((rows.filter (fun x => decide (key x = g))).map val) := by
      intro g
      by_cases h : key r = g <;>
        simp [List.filter_cons, h, optSum]
    simp only [hopt]
    rw [sum_map_add_cell, sum_ite_key _ ks (key r) hnd hr, hrec]
    simp [optSum]

theorem keyGE_snd (p q : Cell × ℚ)
    (h : keyGE (fun x : Cell × ℚ => some x.2) p q) : q.2 ≤ p.2 := h

/-- `_safe_group_sum` (pipeline.py:184-191): group by column `b` keeping
the NaN group (`dropna=False`), sum column `v` per group, sort the
groups descending by the summed value; an absent value column yields an
empty frame.  (The group key enumeration order before the final sort is
modelled as first-appearance order; pandas enumerates sorted keys, an
order difference that the value-descending sort erases up to ties.) -/
def safe_group_sum (t : Table) (b v : String) : List (Cell × ℚ) :=
  if t.cols.contains v then
    sortDesc (fun p => some p.2)
      (groupSums t.rows (fun r => r.get b) (fun r => (r.get v).toNum))
  else []

/-- C4: for a group aggregation over present columns, the summed output
values equal the NaN-skipping input total (conservation); every row's
grouping key — including the missing/null key — appears in the output;
and the output is sorted descending by the summed value. -/
theorem safe_group_sum_conservation (t : Table) (b v : String)
    (_hb : t.cols.contains b = true) (hv : t.cols.contains v = true) :
    ((safe_group_sum t b v).map Prod.snd).sum = optSum (numCol t v)
    ∧ (∀ r ∈ t.rows, ∃ p ∈ safe_group_sum t b v, p.1 = r.get b)
    ∧ List.Pairwise (fun p q : Cell × ℚ => q.2 ≤ p.2) (safe_group_sum t b v) := by
  have hdef : safe_group_sum t b v
      = sortDesc (fun p => some p.2)
          (groupSums t.rows (fun r => r.get b) (fun r => (r.get v).toNum)) := by
    unfold safe_group_sum
    rw [hv]
    simp
  set G := groupSums t.rows (fun r => r.get b) (fun r => (r.get v).toNum) with hG
  have hperm : List.Perm (safe_group_sum t b v) G := hdef ▸ sortDesc_perm _ _
  refine ⟨?_, ?_, ?_⟩
  · have hsum : ((safe_group_sum t b v).map Prod.snd).sum = (G.map Prod.snd).sum :=
      (hperm.map Prod.snd).sum_eq
    rw [hsum, hG]
    unfold groupSums
    rw [List.map_map]
    exact groupSums_total _ _ _ _ (List.nodup_dedup _)
      (fun r hr => List.mem_dedup.mpr (List.mem_map_of_mem _ hr))
  · intro r hr
    have hk : r.get b ∈ groupKeys t.rows (fun x => x.get b) :=
      List.mem_dedup.mpr (List.mem_map_of_mem _ hr)
    have hp : (r.get b,
        optSum ((t.rows.filter (fun x => decide (x.get b = r.get b))).map
          (fun x => (x.get v).toNum))) ∈ G :=
      List.mem_map_of_mem _ hk
    exact ⟨_, hperm.mem_iff.mpr hp, rfl⟩
  · rw [hdef]
    exact (sortDesc_pairwise _ _).imp (fun h => keyGE_snd _ _ h)

/-- Concrete table for the C4 witness: one row with a missing
`Asset Class` key. -/
def tableC4 : Table :=
  ⟨["Asset Class", "USD Total"],
   [[("Asset Class", Cell.str "Equity"), ("USD Total", Cell.num 600)],
    [("USD Total", Cell.num 400)],
    [("Asset Class", Cell.str "Equity"), ("USD Total", Cell.num 100)]]⟩

/-- Witness for C4 at `tableC4`. -/
theorem safe_group_sum_conservation_witness :
    (tableC4.cols.contains ("Asset Class") = true)
    ∧ (tableC4.cols.contains ("USD Total") = true)
    ∧ (((safe_group_sum tableC4 ("Asset Class") ("USD Total")).map Prod.snd).sum
          = optSum (numCol tableC4 ("USD Total"))
        ∧ (∀ r ∈ tableC4.rows,
            ∃ p ∈ safe_group_sum tableC4 ("Asset Class") ("USD Total"),
              p.1 = r.get ("Asset Class"))
        ∧ List.Pairwise (fun p q : Cell × ℚ => q.2 ≤ p.2)
            (safe_group_sum tableC4 ("Asset Class") ("USD Total"))) :=
  ⟨by decide, by decide,
    safe_group_sum_conservation tableC4 ("Asset Class") ("USD Total")
      (by decide) (by decide)⟩

/-- Python `str.lower()` (the names compared here are ASCII). -/
def pyLower (s : String) : String := ⟨s.data.map Char.toLower⟩

/-- Python substring membership `needle in hay`, on character lists. -/
def hasSub (needle : List Char) : List Char → Bool
  | [] => needle.isEmpty
  | c :: rest => needle.isPrefixOf (c :: rest) || hasSub needle rest

/-- Python substring membership `needle in hay`. -/
def strContains (hay needle : String) : Bool := hasSub needle.data hay.data

/-- Sheet-name fallback of `detect_template_type` (pipeline.py:75-84):
exact membership of well-known lowercased sheet names, defaulting to
`PortfolioMaster`. -/
def detectBySheets (sheetNames : List String) : String :=
  let ns := sheetNames.map pyLower
  if ns.contains ("portfoliomaster") || ns.contains ("pastor") then
    "PortfolioMaster"
  else if ns.contains ("equityassetlist") then "EquityAssetList"
  else if ns.contains ("fixedincomeassetlist") || ns.contains ("fixedincome") then
    "FixedIncomeAssetList"
  else "PortfolioMaster"

/-- `detect_template_type` (pipeline.py:58-84): a non-empty metadata
string is matched case-insensitively as a substring (`"pastor"` aliasing
PortfolioMaster, `"fixed income"` aliasing FixedIncomeAssetList); with
no metadata match the sheet names decide, defaulting to
`PortfolioMaster`.  Only the sheet names matter, so the workbook is
passed as its name list. -/
def detect_template_type (sheetNames : List String) (meta : Option String) :
    String :=
  match meta with
  | some m =>
    if m ≠ "" then
      let s := pyLower m
      if strContains s ("portfoliomaster") || strContains s ("pastor") then
        "PortfolioMaster"
      else if strContains s ("equityassetlist") then "EquityAssetList"
      else if strContains s ("fixedincomeassetlist")
          || strContains s ("fixed income") then "FixedIncomeAssetList"
      else detectBySheets sheetNames
    else detectBySheets sheetNames
  | none => detectBySheets sheetNames

/-- Modelled from the claim's description of template detection: the
metadata string is matched case-insensitively as a substring against
each kind's canonical name only, plus the single legacy alias "Pastor"
for PortfolioMaster; the claim's sheet-name clause does not name its
matching targets, so the fallback is the code's. -/
def detectPerClaim (sheetNames : List String) (meta : Option String) :
    String :=
  match meta with
  | some m =>
    if m ≠ "" then
      let s := pyLower m
      if strContains s ("portfoliomaster") || strContains s ("pastor") then
        "PortfolioMaster"
      else if strContains s ("equityassetlist") then "EquityAssetList"
      else if strContains s ("fixedincomeassetlist") then "FixedIncomeAssetList"
      else detectBySheets sheetNames
    else detectBySheets sheetNames
  | none => detectBySheets sheetNames

/-- C8 counterexample: the metadata string "fixed income" contains no
kind's canonical name and is not the Pastor alias, so the claim's rule
falls through to the default PortfolioMaster, yet the code returns
FixedIncomeAssetList via an extra alias. -/
theorem detect_template_type_counterexample :
    detect_template_type [] (some ("fixed income")) = "FixedIncomeAssetList"
    ∧ detectPerClaim [] (some ("fixed income")) = "PortfolioMaster" := by
  constructor <;> decide

/-- C8 amended: detection always returns one of the three kinds and
never raises; metadata matching accepts, besides the canonical names
and the "Pastor" alias, the substring "fixed income" as an alias for
FixedIncomeAssetList; otherwise detection falls back to the sheet
names, defaulting to PortfolioMaster. -/
theorem detect_template_type_amended (sheetNames : List String)
    (meta : Option String) :
    detect_template_type sheetNames meta ∈
      (["PortfolioMaster", "EquityAssetList", "FixedIncomeAssetList"] :
        List String)
    ∧ (∀ m, meta = some m → m ≠ "" →
        strContains (pyLower m) ("portfoliomaster") = false →
        strContains (pyLower m) ("pastor") = false →
        strContains (pyLower m) ("equityassetlist") = false →
        strContains (pyLower m) ("fixed income") = true →
        detect_template_type sheetNames meta = "FixedIncomeAssetList")
    ∧ (meta = none →
        detect_template_type sheetNames meta = detectBySheets sheetNames) := by
  have hbs : ∀ ns, detectBySheets ns ∈
      (["PortfolioMaster", "EquityAssetList", "FixedIncomeAssetList"] :
        List String) := by
    intro ns
    unfold detectBySheets
    dsimp only
    split_ifs <;> simp
  refine ⟨?_, ?_, ?_⟩
  · rcases meta with _ | m
    · exact hbs sheetNames
    · unfold detect_template_type
      dsimp only
      split_ifs <;> simpa using hbs sheetNames
  · rintro m rfl hm h1 h2 h3 h4
    unfold detect_template_type
    simp [hm, h1, h2, h3, h4]
  · rintro rfl
    rfl

/-- Witness for C8 at a concrete metadata string using the alias. -/
theorem detect_template_type_amended_witness :
    ((some ("Q3 Fixed Income list") : Option String) = some ("Q3 Fixed Income list")
      ∧ ("Q3 Fixed Income list" : String) ≠ ""
      ∧ strContains (pyLower ("Q3 Fixed Income list")) ("portfoliomaster") = false
      ∧ strContains (pyLower ("Q3 Fixed Income list")) ("pastor") = false
      ∧ strContains (pyLower ("Q3 Fixed Income list")) ("equityassetlist") = false
      ∧ strContains (pyLower ("Q3 Fixed Income list")) ("fixed income") = true)
    ∧ detect_template_type ["Data"] (some ("Q3 Fixed Income list"))
        = "FixedIncomeAssetList" :=
  ⟨⟨rfl, by decide, by decide, by decide, by decide, by decide⟩,
    (detect_template_type_amended ["Data"] (some ("Q3 Fixed Income list"))).2.1
      ("Q3 Fixed Income list") rfl (by decide) (by decide) (by decide)
      (by decide) (by decide)⟩

/-- Required columns of the PortfolioMaster template (pipeline.py:101). -/
def PORTFOLIO_MASTER_REQUIRED : List String :=
  ["Asset Class", "Sub Asset Class", "FX", "USD Total"]

/-- Required columns of the EquityAssetList template (pipeline.py:109). -/
def EQUITY_REQUIRED : List String :=
  ["Asset (Security Name)", "Market Value (USD)"]

/-- Required columns of the FixedIncomeAssetList template
(pipeline.py:112). -/
def FI_REQUIRED : List String := ["Rating"]

/-- A validation error record `{column, row index, failure}`. -/
structure VError where
  column : Option String
  rowIdx : Option ℕ
  failure : String
deriving DecidableEq

/-- `validate_df` (pipeline.py:119-145): one "missing required" error
per absent required column of the kind, in declaration order; nothing
else is checked. -/
def validate_df (t : Table) (tmpl : String) : List VError :=
  if tmpl = "PortfolioMaster" then
    (PORTFOLIO_MASTER_REQUIRED.filter (fun c => !(t.cols.contains c))).map
      (fun c => ⟨some c, none, "missing required"⟩)
  else if tmpl = "EquityAssetList" then
    (EQUITY_REQUIRED.filter (fun c => !(t.cols.contains c))).map
      (fun c => ⟨some c, none, "missing required"⟩)
  else if tmpl = "FixedIncomeAssetList" then
    (FI_REQUIRED.filter (fun c => !(t.cols.contains c))).map
      (fun c => ⟨some c, none, "missing required"⟩)
  else []

/-- `>=` between two date cells as pandas compares datetime columns
(dates as timestamps): both present compare numerically, a missing side
yields `False` (`NaT >= x` is `False`; the source's `.fillna(True)` is
a no-op because `False` is not NaN). -/
def cellGE : Cell → Cell → Bool
  | Cell.num a, Cell.num b => decide (b ≤ a)
  | _, _ => false

/-- `business_rules` (schema.py:90-101): for Equity/FixedIncome with a
`Weight %` column, one table-level rule `(ok, message)` checking the
NaN-as-zero weight sum against 100 ± 0.5; for FixedIncome with both
date columns, one further rule checking maturity not before issue. -/
def business_rules (t : Table) (tmpl : String) : List (Bool × String) :=
  (if (tmpl = "EquityAssetList" ∨ tmpl = "FixedIncomeAssetList")
      ∧ t.cols.contains ("Weight %") = true then
    [(decide (|optSum (numCol t ("Weight %")) - 100| ≤ 1/2),
      "Weight % does not sum to ~100% (±0.5).")]
  else []) ++
  (if tmpl = "FixedIncomeAssetList" ∧ t.cols.contains ("Maturity Date") = true
      ∧ t.cols.contains ("Issue Date") = true then
    [(t.rows.all (fun r => cellGE (r.get ("Maturity Date")) (r.get ("Issue Date"))),
      "Some bonds have Maturity Date earlier than Issue Date.")]
  else [])

/-- Equity table whose weights sum to 97: all required columns present. -/
def tableC1 : Table :=
  ⟨["Asset (Security Name)", "Market Value (USD)", "Weight %"],
   [[("Asset (Security Name)", Cell.str "AAPL"),
     ("Market Value (USD)", Cell.num 500), ("Weight %", Cell.num 97)]]⟩

/-- C1 counterexample: on an Equity table whose `Weight %` sums to 97
(outside ±0.5), `validate_df` returns the empty list — no business-rule
error is produced by validation. -/
theorem validate_df_counterexample :
    validate_df tableC1 ("EquityAssetList") = []
    ∧ ¬ (|optSum (numCol tableC1 ("Weight %")) - 100| ≤ 1/2) := by
  constructor
  · decide
  · have h1 : numCol tableC1 ("Weight %") = [some 97] := by decide
    have h : optSum (numCol tableC1 ("Weight %")) = 97 := by
      rw [h1]; norm_num [optSum]
    rw [h]
    norm_num

/-- C1 amended: `validate_df` checks only required-column presence —
on an Equity table with all required columns it returns no error even
when the weights sum outside 100 ± 0.5; the weight-sum business rule
lives in the separate, uninvoked `business_rules`, which for such a
table yields exactly one violated table-level rule. -/
theorem validate_df_business_rules_amended (t : Table)
    (hw : t.cols.contains ("Weight %") = true)
    (hsum : ¬ (|optSum (numCol t ("Weight %")) - 100| ≤ 1/2))
    (hreq : ∀ c ∈ EQUITY_REQUIRED, t.cols.contains c = true) :
    validate_df t ("EquityAssetList") = []
    ∧ business_rules t ("EquityAssetList")
        = [(false, "Weight % does not sum to ~100% (±0.5).")] := by
  constructor
  · unfold validate_df
    rw [if_neg (by decide), if_pos rfl]
    have hfil : EQUITY_REQUIRED.filter (fun c => !(t.cols.contains c)) = [] := by
      rw [List.filter_eq_nil_iff]
      intro c hc
      rw [hreq c hc]
      decide
    rw [hfil]
    rfl
  · unfold business_rules
    rw [if_pos ⟨Or.inl rfl, hw⟩, if_neg (by rintro ⟨h, -⟩; exact absurd h (by decide))]
    rw [decide_eq_false hsum]
    rfl

/-- Equity table for the C1 witness: weights sum to 90. -/
def tableC1w : Table :=
  ⟨["Asset (Security Name)", "Market Value (USD)", "Weight %"],
   [[("Asset (Security Name)", Cell.str "MSFT"),
     ("Market Value (USD)", Cell.num 300), ("Weight %", Cell.num 90)]]⟩

/-- Witness for the amended C1 at `tableC1w`. -/
theorem validate_df_business_rules_amended_witness :
    (tableC1w.cols.contains ("Weight %") = true
      ∧ ¬ (|optSum (numCol tableC1w ("Weight %")) - 100| ≤ 1/2)
      ∧ (∀ c ∈ EQUITY_REQUIRED, tableC1w.cols.contains c = true))
    ∧ (validate_df tableC1w ("EquityAssetList") = []
        ∧ business_rules tableC1w ("EquityAssetList")
            = [(false, "Weight % does not sum to ~100% (±0.5).")]) := by
  have hsum : ¬ (|optSum (numCol tableC1w ("Weight %")) - 100| ≤ 1/2) := by
    have h1 : numCol tableC1w ("Weight %") = [some 90] := by decide
    have h : optSum (numCol tableC1w ("Weight %")) = 90 := by
      rw [h1]; norm_num [optSum]
    rw [h]
    norm_num
  exact ⟨⟨by decide, hsum, by decide⟩,
    validate_df_business_rules_amended tableC1w (by decide) hsum (by decide)⟩

/-- Market value of one row in the Equity/FixedIncome branches
(pipeline.py:323-329, 371-377): prefer `Market Value (USD)`, else
`USD Total`, else zero. -/
def rowMV (t : Table) (r : Row) : Option ℚ :=
  if t.cols.contains ("Market Value (USD)") then (r.get ("Market Value (USD)")).toNum
  else if t.cols.contains ("USD Total") then (r.get ("USD Total")).toNum
  else some 0

/-- The `mv` series of the Equity/FixedIncome branches. -/
def mvSeries (t : Table) : List (Option ℚ) := t.rows.map (rowMV t)

/-- Weight series of the Equity/FixedIncome branches
(pipeline.py:331-334, 379-382): the explicit `Weight %` column if
present, else market values normalised to 100 whenever their sum is
nonzero (Python truthiness of `mv.sum()`), else all zeros. -/
def listWeights (t : Table) : List (Option ℚ) :=
  if t.cols.contains ("Weight %") then numCol t ("Weight %")
  else if optSum (mvSeries t) ≠ 0 then
    (mvSeries t).map (fun o => o.map (fun q => q / optSum (mvSeries t) * 100))
  else t.rows.map (fun _ => some 0)

/-- Table with a single negative market value and no weight column. -/
def tableC10 : Table :=
  ⟨["Market Value (USD)"], [[("Market Value (USD)", Cell.num (-5))]]⟩

/-- C10 counterexample: the Equity/FixedIncome weight derivation
normalises by the market-value total although that total is negative —
normalisation is guarded by nonzero, not by strictly positive. -/
theorem listWeights_counterexample :
    optSum (mvSeries tableC10) < 0
    ∧ listWeights tableC10 = [some 100] := by
  have h1 : mvSeries tableC10 = [some (-5)] := by decide
  have h2 : optSum (mvSeries tableC10) = -5 := by rw [h1]; norm_num [optSum]
  constructor
  · rw [h2]; norm_num
  · unfold listWeights
    rw [if_neg (by decide : ¬(tableC10.cols.contains ("Weight %") = true)),
      if_pos (show optSum (mvSeries tableC10) ≠ 0 by rw [h2]; norm_num)]
    rw [h2, h1]
    norm_num

/-- C10 amended: weight derivation never divides by zero — the
PortfolioMaster coalescing normalises only when the `USD Total` sum is
strictly positive while the Equity/FixedIncome derivation normalises
whenever the market-value sum is nonzero; in every path, with no
explicit `Weight %` column and the value column absent or summing to
zero (or non-positive, for the coalescing), every resolved weight
is 0.0. -/
theorem weights_zero_guard (t : Table)
    (hw : t.cols.contains ("Weight %") = false) :
    (optSum (mvSeries t) = 0 → listWeights t = t.rows.map (fun _ => some 0))
    ∧ (t.cols.contains ("USD Total") = false →
        coalesce_weight t = t.rows.map (fun _ => some 0))
    ∧ (t.cols.contains ("USD Total") = true →
        optSum (numCol t ("USD Total")) ≤ 0 →
        coalesce_weight t = t.rows.map (fun _ => some 0)) := by
  refine ⟨?_, ?_, ?_⟩
  · intro h0
    unfold listWeights
    rw [hw]
    simp [h0]
  · intro hu
    unfold coalesce_weight
    rw [hw, hu]
    simp
  · intro hu hle
    unfold coalesce_weight
    rw [hw, hu]
    simp only [Bool.false_eq_true, if_false, if_true]
    rw [if_neg (not_lt.mpr hle)]

/-- Table for the C10 witness: no weight column, `USD Total` present
but summing to zero, no market-value column. -/
def tableC10w : Table :=
  ⟨["USD Total"], [[("USD Total", Cell.num 0)], []]⟩

/-- Witness for the amended C10 at `tableC10w`. -/
theorem weights_zero_guard_witness :
    (tableC10w.cols.contains ("Weight %") = false
      ∧ optSum (mvSeries tableC10w) = 0
      ∧ tableC10w.cols.contains ("USD Total") = true
      ∧ optSum (numCol tableC10w ("USD Total")) ≤ 0)
    ∧ (listWeights tableC10w = tableC10w.rows.map (fun _ => some 0)
      ∧ coalesce_weight tableC10w = tableC10w.rows.map (fun _ => some 0)) := by
  have hm : mvSeries tableC10w = [some 0, none] := by decide
  have h0 : optSum (mvSeries tableC10w) = 0 := by rw [hm]; norm_num [optSum]
  have hu1 : numCol tableC10w ("USD Total") = [some 0, none] := by decide
  have hu0 : optSum (numCol tableC10w ("USD Total")) = 0 := by
    rw [hu1]; norm_num [optSum]
  have hle : optSum (numCol tableC10w ("USD Total")) ≤ 0 := le_of_eq hu0
  refine ⟨⟨by decide, h0, by decide, hle⟩, ?_, ?_⟩
  · exact (weights_zero_guard tableC10w (by decide)).1 h0
  · exact (weights_zero_guard tableC10w (by decide)).2.2 (by decide) hle

/-- Bucket index of `pd.cut(x, bins=[-inf, 1, 3, 5, 7, 10, inf])` with
the default `right=True`: the intervals are right-closed,
`(-inf,1], (1,3], (3,5], (5,7], (7,10], (10,inf)`. -/
def bucketIdx (x : ℚ) : ℕ :=
  if x ≤ 1 then 0 else if x ≤ 3 then 1 else if x ≤ 5 then 2
  else if x ≤ 7 then 3 else if x ≤ 10 then 4 else 5

/-- Weight mass falling in bucket `i`: rows with a present metric in
bucket `i` contribute their NaN-as-zero weight; rows with a missing
metric are excluded entirely. -/
def bucketTotal (ds ws : List (Option ℚ)) (i : ℕ) : ℚ :=
  ((ds.zip ws).map (fun p =>
    match p.1 with
    | some d => if bucketIdx d = i then p.2.getD 0 else 0
    | none => 0)).sum

/-- Duration column preference (pipeline.py:415). -/
def durCol (t : Table) : Option String :=
  if t.cols.contains ("Mod Duration") then some ("Mod Duration")
  else if t.cols.contains ("Duration") then some ("Duration")
  else none

/-- Maturity column preference (pipeline.py:401). -/
def matCol (t : Table) : Option String :=
  if t.cols.contains ("Years to Maturity") then some ("Years to Maturity")
  else if t.cols.contains ("Maturity (Years)") then some ("Maturity (Years)")
  else none

/-- `duration_buckets` (pipeline.py:414-426): cut the duration column
at the fixed bin edges and sum weights per bucket.  Grouping on the
full categorical keeps all six labels in category order; rows with a
missing duration fall into the dropped NaN bucket. -/
def duration_buckets (t : Table) : List (String × ℚ) :=
  match durCol t with
  | none => []
  | some c =>
    let ds := numCol t c
    let ws := listWeights t
    [("0-1", bucketTotal ds ws 0), ("1-3", bucketTotal ds ws 1),
     ("3-5", bucketTotal ds ws 2), ("5-7", bucketTotal ds ws 3),
     ("7-10", bucketTotal ds ws 4), ("10+", bucketTotal ds ws 5)]

/-- `maturity_buckets` (pipeline.py:400-412): same cut on the maturity
column with the year-suffixed labels. -/
def maturity_buckets (t : Table) : List (String × ℚ) :=
  match matCol t with
  | none => []
  | some c =>
    let ds := numCol t c
    let ws := listWeights t
    [("0-1y", bucketTotal ds ws 0), ("1-3y", bucketTotal ds ws 1),
     ("3-5y", bucketTotal ds ws 2), ("5-7y", bucketTotal ds ws 3),
     ("7-10y", bucketTotal ds ws 4), ("10y+", bucketTotal ds ws 5)]

/-- `Exp Return % (annual)` series (pipeline.py:289): an all-NaN
series when the column is absent. -/
def expRetSeries (t : Table) : List (Option ℚ) :=
  if t.cols.contains ("Exp Return % (annual)") then
    numCol t ("Exp Return % (annual)")
  else t.rows.map (fun _ => none)

/-- `TER %` series (pipeline.py:288): an all-zero series when absent. -/
def terSeries (t : Table) : List (Option ℚ) :=
  if t.cols.contains ("TER %") then numCol t ("TER %")
  else t.rows.map (fun _ => some 0)

/-- `ESG Score` series (pipeline.py:300). -/
def esgSeries (t : Table) : List (Option ℚ) :=
  if t.cols.contains ("ESG Score") then numCol t ("ESG Score")
  else t.rows.map (fun _ => none)

/-- `Carbon Intensity` series (pipeline.py:301). -/
def carbSeries (t : Table) : List (Option ℚ) :=
  if t.cols.contains ("Carbon Intensity") then numCol t ("Carbon Intensity")
  else t.rows.map (fun _ => none)

/-- One term of `(metric * w / 100.0).replace({nan: 0})`: a missing
metric or weight contributes zero. -/
def mulDiv100 (m w : Option ℚ) : ℚ :=
  match m, w with
  | some a, some b => a * b / 100
  | _, _ => 0

/-- One term of `(metric * w_norm).replace({nan: 0})`. -/
def mulOpt (m w : Option ℚ) : ℚ :=
  match m, w with
  | some a, some b => a * b
  | _, _ => 0

/-- `gross` (pipeline.py:290-291): NaN-as-zero sum of expected return
times weight over 100. -/
def gross_exp_return (t : Table) : ℚ :=
  (((expRetSeries t).zip (coalesce_weight t)).map
    (fun p => mulDiv100 p.1 p.2)).sum

/-- `ter_w` (pipeline.py:292). -/
def ter_weighted (t : Table) : ℚ :=
  (((terSeries t).zip (coalesce_weight t)).map
    (fun p => mulDiv100 p.1 p.2)).sum

/-- `w_norm` (pipeline.py:302): weights divided by their sum when that
sum is nonzero (Python truthiness), else the raw weights. -/
def wNorm (t : Table) : List (Option ℚ) :=
  if optSum (coalesce_weight t) ≠ 0 then
    (coalesce_weight t).map
      (fun o => o.map (fun q => q / optSum (coalesce_weight t)))
  else coalesce_weight t

/-- `esg_w` (pipeline.py:303). -/
def esg_weighted (t : Table) : ℚ :=
  (((esgSeries t).zip (wNorm t)).map (fun p => mulOpt p.1 p.2)).sum

/-- `carb_w` (pipeline.py:304). -/
def carbon_weighted (t : Table) : ℚ :=
  (((carbSeries t).zip (wNorm t)).map (fun p => mulOpt p.1 p.2)).sum

/-- Modelled from the spec's weighted-average formula: the sum over all
row indices of `metric[i] * weight[i] / 100`, a missing metric (or
weight) contributing zero with no renormalisation. -/
def specWeightedAvg (ms ws : List (Option ℚ)) : ℚ :=
  ∑ i ∈ Finset.range ms.length, mulDiv100 (ms.getD i none) (ws.getD i none)

theorem zip_map_sum_eq (f : Option ℚ → Option ℚ → ℚ) :
    ∀ (ms ws : List (Option ℚ)), ms.length = ws.length →
      ((ms.zip ws).map (fun p => f p.1 p.2)).sum
        = ∑ i ∈ Finset.range ms.length, f (ms.getD i none) (ws.getD i none) := by
  intro ms
  induction ms with
  | nil =>
    intro ws h
    simp
  | cons m ms ih =>
    intro ws h
    rcases ws with _ | ⟨w, ws⟩
    · simp at h
    · have hlen : ms.length = ws.length := by simpa using h
      simp only [List.zip_cons_cons, List.map_cons, List.sum_cons,
        List.length_cons]
      rw [Finset.sum_range_succ']
      simp only [List.getD_cons_succ, List.getD_cons_zero]
      rw [← ih ws hlen]
      ring

theorem coalesce_weight_length (t : Table) :
    (coalesce_weight t).length = t.rows.length := by
  unfold coalesce_weight
  dsimp only
  split_ifs <;> simp [numCol]

theorem expRetSeries_length (t : Table) :
    (expRetSeries t).length = t.rows.length := by
  unfold expRetSeries
  split_ifs <;> simp [numCol]

theorem terSeries_length (t : Table) :
    (terSeries t).length = t.rows.length := by
  unfold terSeries
  split_ifs <;> simp [numCol]

theorem esgSeries_length (t : Table) :
    (esgSeries t).length = t.rows.length := by
  unfold esgSeries
  split_ifs <;> simp [numCol]

theorem carbSeries_length (t : Table) :
    (carbSeries t).length = t.rows.length := by
  unfold carbSeries
  split_ifs <;> simp [numCol]

theorem getD_opt_map (g : ℚ → ℚ) (l : List (Option ℚ)) (i : ℕ) :
    (l.map (fun o => o.map g)).getD i none = (l.getD i none).map g := by
  induction l generalizing i with
  | nil => simp
  | cons a l ih =>
    rcases i with _ | i
    · simp
    · rw [List.map_cons, List.getD_cons_succ, List.getD_cons_succ]
      exact ih i

/-- C5 amended: the fee and expected-return metrics follow the spec's
`sum(metric[i] * weight[i] / 100)` formula with missing metrics
contributing zero, but the ESG score and the carbon intensity instead
weight by `w / w.sum()` — normalised by the weight total when it is
nonzero, raw weights when it is zero — not by `w / 100`. -/
theorem weighted_metrics_amended (t : Table) :
    gross_exp_return t = specWeightedAvg (expRetSeries t) (coalesce_weight t)
    ∧ ter_weighted t = specWeightedAvg (terSeries t) (coalesce_weight t)
    ∧ (optSum (coalesce_weight t) ≠ 0 →
        esg_weighted t
          = ∑ i ∈ Finset.range (esgSeries t).length,
              mulOpt ((esgSeries t).getD i none)
                (((coalesce_weight t).getD i none).map
                  (fun q => q / optSum (coalesce_weight t))))
    ∧ (optSum (coalesce_weight t) = 0 →
        esg_weighted t
          = ∑ i ∈ Finset.range (esgSeries t).length,
              mulOpt ((esgSeries t).getD i none)
                ((coalesce_weight t).getD i none))
    ∧ (optSum (coalesce_weight t) ≠ 0 →
        carbon_weighted t
          = ∑ i ∈ Finset.range (carbSeries t).length,
              mulOpt ((carbSeries t).getD i none)
                (((coalesce_weight t).getD i none).map
                  (fun q => q / optSum (coalesce_weight t))))
    ∧ (optSum (coalesce_weight t) = 0 →
        carbon_weighted t
          = ∑ i ∈ Finset.range (carbSeries t).length,
              mulOpt ((carbSeries t).getD i none)
                ((coalesce_weight t).getD i none)) := by
  refine ⟨?_, ?_, ?_, ?_, ?_, ?_⟩
  · unfold gross_exp_return specWeightedAvg
    exact zip_map_sum_eq mulDiv100 _ _
      ((expRetSeries_length t).trans (coalesce_weight_length t).symm)
  · unfold ter_weighted specWeightedAvg
    exact zip_map_sum_eq mulDiv100 _ _
      ((terSeries_length t).trans (coalesce_weight_length t).symm)
  · intro h0
    unfold esg_weighted wNorm
    rw [if_pos h0]
    rw [zip_map_sum_eq mulOpt _ _ (by
      simp only [List.length_map]
      exact (esgSeries_length t).trans (coalesce_weight_length t).symm)]
    exact Finset.sum_congr rfl (fun i _ => by rw [getD_opt_map])
  · intro h0
    unfold esg_weighted wNorm
    rw [if_neg (by simp [h0])]
    exact zip_map_sum_eq mulOpt _ _
      ((esgSeries_length t).trans (coalesce_weight_length t).symm)
  · intro h0
    unfold carbon_weighted wNorm
    rw [if_pos h0]
    rw [zip_map_sum_eq mulOpt _ _ (by
      simp only [List.length_map]
      exact (carbSeries_length t).trans (coalesce_weight_length t).symm)]
    exact Finset.sum_congr rfl (fun i _ => by rw [getD_opt_map])
  · intro h0
    unfold carbon_weighted wNorm
    rw [if_neg (by simp [h0])]
    exact zip_map_sum_eq mulOpt _ _
      ((carbSeries_length t).trans (coalesce_weight_length t).symm)

/-- PortfolioMaster table with weights summing to 50: one row,
weight 50, ESG score 10. -/
def tableC5 : Table :=
  ⟨["Weight %", "ESG Score"],
   [[("Weight %", Cell.num 50), ("ESG Score", Cell.num 10)]]⟩

/-- C5 counterexample: the weighted ESG score of `tableC5` is 10
(weights normalised by their sum, 50), while the spec formula
`sum(metric * weight / 100)` yields 5. -/
theorem esg_weighted_counterexample :
    esg_weighted tableC5 = 10
    ∧ specWeightedAvg (esgSeries tableC5) (coalesce_weight tableC5) = 5
    ∧ esg_weighted tableC5
        ≠ specWeightedAvg (esgSeries tableC5) (coalesce_weight tableC5) := by
  have hw : coalesce_weight tableC5 = [some 50] := by
    unfold coalesce_weight
    rw [if_pos (show tableC5.cols.contains ("Weight %") = true by decide),
      if_neg (show ¬tableC5.cols.contains ("USD Total") = true by decide)]
    decide
  have he : esgSeries tableC5 = [some 10] := by
    unfold esgSeries
    rw [if_pos (show tableC5.cols.contains ("ESG Score") = true by decide)]
    decide
  have hs : optSum (coalesce_weight tableC5) = 50 := by
    rw [hw]; norm_num [optSum]
  have h1 : esg_weighted tableC5 = 10 := by
    unfold esg_weighted wNorm
    rw [if_pos (by rw [hs]; norm_num), hs, hw, he]
    norm_num [mulOpt]
  have h2 : specWeightedAvg (esgSeries tableC5) (coalesce_weight tableC5) = 5 := by
    unfold specWeightedAvg
    rw [hw, he]
    norm_num [mulDiv100]
  refine ⟨h1, h2, ?_⟩
  rw [h1, h2]
  norm_num

/-- `usd` of one row in the PortfolioMaster branch (pipeline.py:246):
the `USD Total` cell, or zero with the column absent. -/
def rowUSD (t : Table) (r : Row) : Option ℚ :=
  if t.cols.contains ("USD Total") then (r.get ("USD Total")).toNum else some 0

/-- `top_positions` (pipeline.py:357-361): rows sorted descending by
the market-value series, first 25; dropping the helper `__mv` column
leaves the rows unchanged. -/
def top_positions (t : Table) : List Row :=
  (sortDesc (rowMV t) t.rows).take 25

/-- `top_assets` (pipeline.py:312-314): rows sorted descending by
`__usd`, first 15; the kept columns are the original ones. -/
def top_assets (t : Table) : List Row :=
  (sortDesc (rowUSD t) t.rows).take 15


/-- Lookup of a sheet by name in the workbook mapping. -/
def sheetsGet (sheets : List (String × Table)) (n : String) : Option Table :=
  (sheets.find? (fun p => p.1 == n)).map Prod.snd

/-- The grouped policy frame of `_read_policy` for a `Policy` sheet `p`
(pipeline.py:200-205): rows with a missing asset class are dropped
(`groupby` default `dropna=True`), duplicate asset classes summed. -/
def policyOf (p : Table) : List (Cell × ℚ) :=
  groupSums
    (p.rows.filter (fun r => !(decide (r.get ("Asset Class") = Cell.na))))
    (fun r => r.get ("Asset Class"))
    (fun r => (r.get ("Policy Weight %")).toNum)

/-- The grouped policy frame never carries a missing asset-class key:
its keys come from the rows kept by the `dropna=True` filter. -/
theorem policyOf_no_na (P : Table) (w : ℚ) : (Cell.na, w) ∉ policyOf P := by
  intro h
  unfold policyOf groupSums groupKeys at h
  rcases List.mem_map.mp h with ⟨g, hg, heq⟩
  injection heq with h1 h2
  subst h1
  rcases List.mem_map.mp (List.mem_dedup.mp hg) with ⟨r, hr, hkey⟩
  have hkey2 : r.get ("Asset Class") = Cell.na := hkey
  have hfil : (!(decide (r.get ("Asset Class") = Cell.na))) = true :=
    (List.mem_filter.mp hr).2
  rw [hkey2] at hfil
  simp at hfil

/-- `_read_policy` (pipeline.py:194-213), policy frame part: a present
`Policy` sheet with both required columns yields the duplicate-summed
frame, anything else `None`. -/
def read_policy (sheets : List (String × Table)) : Option (List (Cell × ℚ)) :=
  match sheetsGet sheets ("Policy") with
  | none => none
  | some p =>
    if p.cols.contains ("Asset Class")
        && p.cols.contains ("Policy Weight %") then some (policyOf p)
    else none

/-- `by_asset_class` (pipeline.py:262): `_safe_group_sum` over the
always-present `__usd` helper series. -/
def by_asset_class (t : Table) : List (Cell × ℚ) :=
  sortDesc (fun p => some p.2)
    (groupSums t.rows (fun r => r.get ("Asset Class")) (rowUSD t))

/-- Keyed lookup into a grouped (unique-keyed) frame. -/
def lookupQ (l : List (Cell × ℚ)) (c : Cell) : Option ℚ :=
  (l.find? (fun p => decide (p.1 = c))).map Prod.snd

/-- `.fillna(0.0)` applied to a merge-key cell (pipeline.py:283): the
fill runs over the whole merged frame, so a missing `Asset Class` key
(kept by the `dropna=False` actual grouping) is rewritten to the float
0.0 in the output. -/
def fillnaKey (c : Cell) : Cell := if c = Cell.na then Cell.num 0 else c

theorem fillnaKey_ne {c : Cell} (h : c ≠ Cell.na) : fillnaKey c = c :=
  if_neg h

/-- `policy_compare` (pipeline.py:280-285): outer merge of actual
allocation percentages against the policy frame on `Asset Class`; the
subsequent `.fillna(0.0)` fills the value of an absent side with 0 and
also rewrites a missing merge key to 0.0; computed only when a policy
frame exists and the actual grouping is non-empty.  The matching runs
on the original keys (the merge happens before the fill). -/
def policy_compare (t : Table) (sheets : List (String × Table)) :
    Option (List (Cell × ℚ × ℚ)) :=
  match read_policy sheets with
  | none => none
  | some pol =>
    let ac := by_asset_class t
    if ac = [] then none
    else
      let total := (ac.map Prod.snd).sum
      some ((ac.map (fun a =>
          (fillnaKey a.1, a.2 / total * 100, (lookupQ pol a.1).getD 0)))
        ++ ((pol.filter (fun q => !(ac.any (fun a => decide (a.1 = q.1))))).map
            (fun q => (fillnaKey q.1, 0, q.2))))

theorem lookupQ_eq_none (l : List (Cell × ℚ)) (c : Cell)
    (h : ∀ w, (c, w) ∉ l) : lookupQ l c = none := by
  unfold lookupQ
  rw [List.find?_eq_none.mpr]
  · rfl
  · intro x hx
    simp only [decide_eq_true_eq]
    intro hxc
    have hx2 : (c, x.2) = x := by
      rw [← hxc]
    exact h x.2 (hx2 ▸ hx)

theorem groupSums_mem {rows : List Row} {key : Row → Cell}
    {val : Row → Option ℚ} {c : Cell} {w : ℚ}
    (h : (c, w) ∈ groupSums rows key val) :
    w = optSum ((rows.filter (fun r => decide (key r = c))).map val) := by
  unfold groupSums at h
  rcases List.mem_map.mp h with ⟨g, hg, heq⟩
  injection heq with h1 h2
  subst h1
  exact h2.symm

/-- C7: with a `Policy` sheet carrying both required columns and a
non-empty actual allocation, the comparison table exists; an asset
class appears in it exactly when it appears on either side (a missing
actual key appearing under its NaN-filled label 0.0); a side missing
an asset class contributes 0 there; and each policy weight is the sum
over all (duplicated) policy rows of that asset class. -/
theorem policy_compare_outer_join (t : Table) (sheets : List (String × Table))
    (P : Table) (hp : sheetsGet sheets ("Policy") = some P)
    (hc : (P.cols.contains ("Asset Class")
        && P.cols.contains ("Policy Weight %")) = true)
    (hac : by_asset_class t ≠ []) :
    ∃ comp, policy_compare t sheets = some comp
      ∧ (∀ c : Cell, (∃ x y, (c, x, y) ∈ comp)
          ↔ ((∃ a, a ∈ by_asset_class t ∧ fillnaKey a.1 = c)
              ∨ ∃ w, (c, w) ∈ policyOf P))
      ∧ (∀ c x y, (c, x, y) ∈ comp → (∀ w, (c, w) ∉ policyOf P) → y = 0)
      ∧ (∀ c x y, (c, x, y) ∈ comp →
          (∀ a, a ∈ by_asset_class t → fillnaKey a.1 ≠ c) → x = 0)
      ∧ (∀ c w, (c, w) ∈ policyOf P →
          w = optSum (((P.rows.filter
                (fun r => !(decide (r.get ("Asset Class") = Cell.na)))).filter
              (fun r => decide (r.get ("Asset Class") = c))).map
            (fun r => (r.get ("Policy Weight %")).toNum))) := by
  have hrp : read_policy sheets = some (policyOf P) := by
    unfold read_policy
    rw [hp]
    dsimp only
    rw [if_pos hc]
  set ac := by_asset_class t with hacdef
  set pol := policyOf P with hpoldef
  set total := (ac.map Prod.snd).sum with htot
  have hnoNa : ∀ w : ℚ, (Cell.na, w) ∉ pol := fun w => policyOf_no_na P w
  refine ⟨(ac.map (fun a =>
        (fillnaKey a.1, a.2 / total * 100, (lookupQ pol a.1).getD 0)))
      ++ ((pol.filter (fun q => !(ac.any (fun a => decide (a.1 = q.1))))).map
          (fun q => (fillnaKey q.1, 0, q.2))), ?_, ?_, ?_, ?_, ?_⟩
  · unfold policy_compare
    rw [hrp]
    dsimp only
    rw [if_neg hac]
  · intro c
    constructor
    · rintro ⟨x, y, hmem⟩
      rcases List.mem_append.mp hmem with h | h
      · rcases List.mem_map.mp h with ⟨⟨a1, a2⟩, ha, heq⟩
        injection heq with h1 hrest
        exact Or.inl ⟨(a1, a2), ha, h1⟩
      · rcases List.mem_map.mp h with ⟨⟨q1, q2⟩, hq, heq⟩
        injection heq with h1 hrest
        have hqpol := (List.mem_filter.mp hq).1
        have hq1 : q1 ≠ Cell.na := fun hna => hnoNa q2 (hna ▸ hqpol)
        have hc1 : q1 = c := by rw [← h1, fillnaKey_ne hq1]
        exact Or.inr ⟨q2, hc1 ▸ hqpol⟩
    · rintro (⟨⟨a1, a2⟩, ha, hfk⟩ | ⟨w, hwmem⟩)
      · exact ⟨a2 / total * 100, (lookupQ pol a1).getD 0,
          List.mem_append_left _
            (List.mem_map.mpr ⟨(a1, a2), ha, by rw [hfk]⟩)⟩
      · have hcna : c ≠ Cell.na := fun hna => hnoNa w (hna ▸ hwmem)
        by_cases hin : ac.any (fun a => decide (a.1 = c)) = true
        · rcases List.any_eq_true.mp hin with ⟨⟨a1, a2⟩, ha, hdec⟩
          simp only [decide_eq_true_eq] at hdec
          refine ⟨a2 / total * 100, (lookupQ pol a1).getD 0,
            List.mem_append_left _
              (List.mem_map.mpr ⟨(a1, a2), ha, ?_⟩)⟩
          rw [hdec, fillnaKey_ne hcna]
        · have hfalse : ac.any (fun a => decide (a.1 = c)) = false :=
            Bool.eq_false_iff.mpr hin
          refine ⟨0, w, List.mem_append_right _
            (List.mem_map.mpr ⟨(c, w), List.mem_filter.mpr ⟨hwmem, ?_⟩, ?_⟩)⟩
          · rw [hfalse]
            rfl
          · rw [fillnaKey_ne hcna]
  · intro c x y hmem hnone
    rcases List.mem_append.mp hmem with h | h
    · rcases List.mem_map.mp h with ⟨⟨a1, a2⟩, ha, heq⟩
      injection heq with h1 hrest
      injection hrest with h2 h3
      by_cases hna : a1 = Cell.na
      · subst hna
        rw [← h3, lookupQ_eq_none pol Cell.na hnoNa]
        rfl
      · have hc1 : a1 = c := by rw [← h1, fillnaKey_ne hna]
        subst hc1
        rw [← h3, lookupQ_eq_none pol a1 hnone]
        rfl
    · rcases List.mem_map.mp h with ⟨⟨q1, q2⟩, hq, heq⟩
      injection heq with h1 hrest
      have hqpol := (List.mem_filter.mp hq).1
      have hq1 : q1 ≠ Cell.na := fun hna => hnoNa q2 (hna ▸ hqpol)
      have hc1 : q1 = c := by rw [← h1, fillnaKey_ne hq1]
      exact absurd (hc1 ▸ hqpol) (hnone q2)
  · intro c x y hmem hnone
    rcases List.mem_append.mp hmem with h | h
    · rcases List.mem_map.mp h with ⟨⟨a1, a2⟩, ha, heq⟩
      injection heq with h1 hrest
      exact absurd h1 (hnone (a1, a2) ha)
    · rcases List.mem_map.mp h with ⟨⟨q1, q2⟩, hq, heq⟩
      injection heq with h1 hrest
      injection hrest with h2 h3
      exact h2.symm
  · intro c w hmem
    exact groupSums_mem hmem

/-- Policy sheet with a duplicated asset class for the C7 witness. -/
def policyC7 : Table :=
  ⟨["Asset Class", "Policy Weight %"],
   [[("Asset Class", Cell.str "Equity"), ("Policy Weight %", Cell.num 60)],
    [("Asset Class", Cell.str "Bond"), ("Policy Weight %", Cell.num 20)],
    [("Asset Class", Cell.str "Equity"), ("Policy Weight %", Cell.num 10)]]⟩

/-- Actual table for the C7 witness: one Equity row. -/
def tableC7 : Table :=
  ⟨["Asset Class", "USD Total"],
   [[("Asset Class", Cell.str "Equity"), ("USD Total", Cell.num 100)]]⟩

/-- Witness for C7: the hypotheses hold at the concrete policy workbook
and the conclusion follows by the theorem. -/
theorem policy_compare_outer_join_witness :
    (sheetsGet [("Policy", policyC7)] ("Policy") = some policyC7
      ∧ (policyC7.cols.contains ("Asset Class")
          && policyC7.cols.contains ("Policy Weight %")) = true
      ∧ by_asset_class tableC7 ≠ [])
    ∧ (∃ comp, policy_compare tableC7 [("Policy", policyC7)] = some comp
        ∧ (∀ c : Cell, (∃ x y, (c, x, y) ∈ comp)
            ↔ ((∃ a, a ∈ by_asset_class tableC7 ∧ fillnaKey a.1 = c)
                ∨ ∃ w, (c, w) ∈ policyOf policyC7))
        ∧ (∀ c x y, (c, x, y) ∈ comp →
            (∀ w, (c, w) ∉ policyOf policyC7) → y = 0)
        ∧ (∀ c x y, (c, x, y) ∈ comp →
            (∀ a, a ∈ by_asset_class tableC7 → fillnaKey a.1 ≠ c) → x = 0)
        ∧ (∀ c w, (c, w) ∈ policyOf policyC7 →
            w = optSum (((policyC7.rows.filter
                  (fun r => !(decide (r.get ("Asset Class") = Cell.na)))).filter
                (fun r => decide (r.get ("Asset Class") = c))).map
              (fun r => (r.get ("Policy Weight %")).toNum)))) := by
  have hlen : (by_asset_class tableC7).length
      = (groupSums tableC7.rows (fun r => r.get ("Asset Class"))
          (rowUSD tableC7)).length :=
    (sortDesc_perm _ _).length_eq
  have hone : (groupSums tableC7.rows (fun r => r.get ("Asset Class"))
      (rowUSD tableC7)).length = 1 := by
    unfold groupSums
    rw [List.length_map]
    decide
  have hac : by_asset_class tableC7 ≠ [] := by
    intro h
    rw [h] at hlen
    rw [hone] at hlen
    exact absurd hlen.symm (by decide)
  exact ⟨⟨by decide, by decide, hac⟩,
    policy_compare_outer_join tableC7 [("Policy", policyC7)] policyC7
      (by decide) (by decide) hac⟩

/-- PortfolioMaster group-sum over the per-row `usd` values
(pipeline.py:262-265). -/
def group_usd (t : Table) (b : String) : List (Cell × ℚ) :=
  sortDesc (fun p => some p.2)
    (groupSums t.rows (fun r => r.get b) (rowUSD t))

/-- `by_country` (pipeline.py:268-275): ISO3 preferred; a plain groupby
whose default `dropna=True` drops missing keys; empty with neither
column. -/
def by_country (t : Table) : List (Cell × ℚ) :=
  if t.cols.contains ("Country ISO3") then
    groupSums
      (t.rows.filter (fun r => !(decide (r.get ("Country ISO3") = Cell.na))))
      (fun r => r.get ("Country ISO3")) (rowUSD t)
  else if t.cols.contains ("Country") then
    groupSums
      (t.rows.filter (fun r => !(decide (r.get ("Country") = Cell.na))))
      (fun r => r.get ("Country")) (rowUSD t)
  else []

/-- The `usd` series of the PortfolioMaster branch (pipeline.py:246). -/
def usdSeries (t : Table) : List (Option ℚ) := t.rows.map (rowUSD t)

/-- `top10_concentration_%` (pipeline.py:258-259): sum of the ten
largest weights. -/
def top10_conc (t : Table) : ℚ :=
  optSum ((sortDesc (fun o => o) (coalesce_weight t)).take 10)

/-- `meta` of `_read_policy` (pipeline.py:207-213): key/value pairs of
the first two `PolicyMeta` columns, empty otherwise. -/
def policyMeta (sheets : List (String × Table)) : List (Cell × Cell) :=
  match sheetsGet sheets ("PolicyMeta") with
  | some p =>
    if 2 ≤ p.cols.length then
      p.rows.map (fun r => (r.get (p.cols.getD 0 ""), r.get (p.cols.getD 1 "")))
    else []
  | none => []

/-- Python `dict(zip(...)).get(k)`: later duplicates win. -/
def metaLookup (m : List (Cell × Cell)) (k : String) : Option Cell :=
  (m.reverse.find? (fun p => decide (p.1 = Cell.str k))).map Prod.snd

/-- Benchmark figure from `PolicyMeta` (pipeline.py:305-306): numeric
coercion of the looked-up value, NaN when the mapping is empty or the
key is missing or non-numeric. -/
def benchCell (m : List (Cell × Cell)) (k : String) : Cell :=
  if m = [] then Cell.na
  else
    match metaLookup m k with
    | some c =>
      match c.toNum with
      | some q => Cell.num q
      | none => Cell.na
    | none => Cell.na

/-- `by_sector`/`by_region` (pipeline.py:343-355): with a `Weight %`
column, grouped weight sums (`dropna=True`); with no weight column the
named aggregation produces an all-NaN column, so the fallback groups
`Market Value (USD)` sums relabelled as weights; empty when the
grouping column is absent. -/
def groupWeightTable (t : Table) (b : String) : List (Cell × ℚ) :=
  if t.cols.contains b then
    (if t.cols.contains ("Weight %") then
      groupSums (t.rows.filter (fun r => !(decide (r.get b = Cell.na))))
        (fun r => r.get b) (fun r => (r.get ("Weight %")).toNum)
    else
      groupSums (t.rows.filter (fun r => !(decide (r.get b = Cell.na))))
        (fun r => r.get b) (fun r => (r.get ("Market Value (USD)")).toNum))
  else []

/-- `by_rating` (pipeline.py:391-398): like the sector grouping but
sorted descending by the summed column. -/
def by_rating (t : Table) : List (Cell × ℚ) :=
  if t.cols.contains ("Rating") then
    sortDesc (fun p => some p.2)
      (if t.cols.contains ("Weight %") then
        groupSums
          (t.rows.filter (fun r => !(decide (r.get ("Rating") = Cell.na))))
          (fun r => r.get ("Rating")) (fun r => (r.get ("Weight %")).toNum)
      else
        groupSums
          (t.rows.filter (fun r => !(decide (r.get ("Rating") = Cell.na))))
          (fun r => r.get ("Rating"))
          (fun r => (r.get ("Market Value (USD)")).toNum))
  else []

/-- A value of the result dict: a scalar-metric mapping, a derived
table, or Python `None`. -/
inductive BVal where
  | metricsMap (m : List (String × ℚ))
  | table (tb : Table)
  | pyNone
deriving DecidableEq

/-- Render a grouped frame as a two-column table. -/
def groupTable (kcol vcol : String) (g : List (Cell × ℚ)) : Table :=
  ⟨[kcol, vcol], g.map (fun p => [(kcol, p.1), (vcol, Cell.num p.2)])⟩

/-- Render the three-column policy comparison (pipeline.py:284). -/
def compTable (g : List (Cell × ℚ × ℚ)) : Table :=
  ⟨["Asset Class", "Actual %", "Policy Weight %"],
   g.map (fun p => [("Asset Class", p.1), ("Actual %", Cell.num p.2.1),
     ("Policy Weight %", Cell.num p.2.2)])⟩

/-- `fees_returns` (pipeline.py:294-297). -/
def fees_returns (t : Table) : Table :=
  ⟨["Metric", "Value"],
   [[("Metric", Cell.str "Gross Exp Return %"),
     ("Value", Cell.num (gross_exp_return t))],
    [("Metric", Cell.str "TER % (weighted)"),
     ("Value", Cell.num (ter_weighted t))],
    [("Metric", Cell.str "Net Exp Return %"),
     ("Value", Cell.num (gross_exp_return t - ter_weighted t))]]⟩

/-- `esg` (pipeline.py:307-310). -/
def esgTable (t : Table) (sheets : List (String × Table)) : Table :=
  ⟨["Metric", "Value"],
   [[("Metric", Cell.str "Portfolio ESG"),
     ("Value", Cell.num (esg_weighted t))],
    [("Metric", Cell.str "Benchmark ESG"),
     ("Value", benchCell (policyMeta sheets) ("ESG_Benchmark_Score"))],
    [("Metric", Cell.str "Portfolio Carbon"),
     ("Value", Cell.num (carbon_weighted t))],
    [("Metric", Cell.str "Benchmark Carbon"),
     ("Value", benchCell (policyMeta sheets) ("Carbon_Benchmark_Intensity"))]]⟩

/-- `transform_results` (pipeline.py:218-431): the result dict in
insertion order; an unknown template kind falls through every branch to
the initial `{"metrics": {}}`. -/
def transform_results (t : Table) (tmpl : String)
    (sheets : List (String × Table)) : List (String × BVal) :=
  if tmpl = "PortfolioMaster" then
    [("metrics", BVal.metricsMap
        [("n_rows", (t.rows.length : ℚ)),
         ("usd_total_sum", optSum (usdSeries t)),
         ("w_sum", optSum (coalesce_weight t)),
         ("top10_concentration_%", top10_conc t)]),
     ("by_asset_class", BVal.table
        (groupTable ("Asset Class") ("USD Total") (by_asset_class t))),
     ("by_sub_asset", BVal.table
        (groupTable ("Sub Asset Class") ("USD Total")
          (group_usd t ("Sub Asset Class")))),
     ("by_fx", BVal.table (groupTable ("FX") ("USD Total")
        (group_usd t ("FX")))),
     ("by_liquidity", BVal.table (groupTable ("Liquidity") ("USD Total")
        (group_usd t ("Liquidity")))),
     ("by_country", BVal.table (groupTable
        (if t.cols.contains ("Country ISO3") then "Country ISO3"
         else if t.cols.contains ("Country") then "Country"
         else "Country ISO3")
        ("USD Total") (by_country t))),
     ("policy", match read_policy sheets with
        | some pol =>
          BVal.table (groupTable ("Asset Class") ("Policy Weight %") pol)
        | none => BVal.pyNone)]
    ++ (match policy_compare t sheets with
        | some comp => [("policy_compare", BVal.table (compTable comp))]
        | none => [])
    ++ [("fees_returns", BVal.table (fees_returns t)),
        ("esg", BVal.table (esgTable t sheets)),
        ("top_assets", BVal.table ⟨t.cols, top_assets t⟩)]
  else if tmpl = "EquityAssetList" then
    [("metrics", BVal.metricsMap
        [("n_rows", (t.rows.length : ℚ)),
         ("mv_sum", optSum (mvSeries t)),
         ("w_sum", optSum (listWeights t))]),
     ("by_sector", BVal.table (groupTable ("Sector (GICS)") ("Weight %")
        (groupWeightTable t ("Sector (GICS)")))),
     ("by_region", BVal.table (groupTable ("Region") ("Weight %")
        (groupWeightTable t ("Region")))),
     ("top_positions", BVal.table ⟨t.cols, top_positions t⟩)]
  else if tmpl = "FixedIncomeAssetList" then
    [("metrics", BVal.metricsMap
        [("n_rows", (t.rows.length : ℚ)),
         ("mv_sum", optSum (mvSeries t)),
         ("w_sum", optSum (listWeights t))]),
     ("by_rating", BVal.table
        (groupTable ("Rating") ("Weight %") (by_rating t))),
     ("maturity_buckets", BVal.table ⟨["Bucket", "Weight %"],
        (maturity_buckets t).map (fun p =>
          [("Bucket", Cell.str p.1), ("Weight %", Cell.num p.2)])⟩),
     ("duration_buckets", BVal.table ⟨["Bucket", "Weight %"],
        (duration_buckets t).map (fun p =>
          [("Bucket", Cell.str p.1), ("Weight %", Cell.num p.2)])⟩)]
  else [("metrics", BVal.metricsMap [])]

/-- C9: for any table, any sheets, and any template kind outside the
three known kinds, the transform returns exactly the singleton bundle
`{"metrics": {}}` — an empty metrics mapping and no other keys — and
never fails. -/
theorem transform_results_unknown (t : Table) (tmpl : String)
    (sheets : List (String × Table))
    (h1 : tmpl ≠ "PortfolioMaster") (h2 : tmpl ≠ "EquityAssetList")
    (h3 : tmpl ≠ "FixedIncomeAssetList") :
    transform_results t tmpl sheets = [("metrics", BVal.metricsMap [])] := by
  unfold transform_results
  rw [if_neg h1, if_neg h2, if_neg h3]

/-- Witness for C9 at the kind "Unknown". -/
theorem transform_results_unknown_witness :
    (("Unknown" : String) ≠ "PortfolioMaster"
      ∧ ("Unknown" : String) ≠ "EquityAssetList"
      ∧ ("Unknown" : String) ≠ "FixedIncomeAssetList")
    ∧ transform_results ⟨[], []⟩ ("Unknown") []
        = [("metrics", BVal.metricsMap [])] :=
  ⟨⟨by decide, by decide, by decide⟩,
    transform_results_unknown ⟨[], []⟩ ("Unknown") []
      (by decide) (by decide) (by decide)⟩

theorem tableC5_weights : coalesce_weight tableC5 = [some 50] := by
  unfold coalesce_weight
  rw [if_pos (show tableC5.cols.contains ("Weight %") = true by decide),
    if_neg (show ¬tableC5.cols.contains ("USD Total") = true by decide)]
  decide

/-- Witness for the amended C5 at `tableC5`. -/
theorem weighted_metrics_amended_witness :
    gross_exp_return tableC5
        = specWeightedAvg (expRetSeries tableC5) (coalesce_weight tableC5)
    ∧ optSum (coalesce_weight tableC5) ≠ 0
    ∧ esg_weighted tableC5
        = ∑ i ∈ Finset.range (esgSeries tableC5).length,
            mulOpt ((esgSeries tableC5).getD i none)
              (((coalesce_weight tableC5).getD i none).map
                (fun q => q / optSum (coalesce_weight tableC5)))
    ∧ carbon_weighted tableC5
        = ∑ i ∈ Finset.range (carbSeries tableC5).length,
            mulOpt ((carbSeries tableC5).getD i none)
              (((coalesce_weight tableC5).getD i none).map
                (fun q => q / optSum (coalesce_weight tableC5))) := by
  have hs : optSum (coalesce_weight tableC5) ≠ 0 := by
    rw [tableC5_weights]
    norm_num [optSum]
  have h := weighted_metrics_amended tableC5
  exact ⟨h.1, hs, h.2.2.1 hs, h.2.2.2.2.1 hs⟩


end Pipeline
